import Mathlib

/-!
Verification of the countdown / payout-window server (`src/server.js`).

The embedding below follows the main server variant (the one with the
NIST-backed 24-hour payout window, the `meta` persistence documents and the
administrative reset endpoints).  JavaScript numbers used by that code are
integers (millisecond epoch timestamps, second counts, visitor counts), so
they are modelled as `Int` / `Nat`; `Math.floor`, `Math.ceil` and the
JavaScript remainder operator `%` are modelled exactly (see `jsFloorDiv`,
`jsCeilDiv`, `jsRem`).  Module-level mutable state becomes the explicit
`ServerState` record, and every handler becomes a pure state-passing
function taking the current local clock value `now` (each JS function reads
`Date.now()` during one event-loop turn; the embedding passes that instant
explicitly).  Both storage backends of the source are represented: the
in-memory `memoryStore` fields and the Firestore documents (fields prefixed
`fs`), selected by `dbEnabled` exactly as the source branches on `db`.
-/

/-- `Math.floor(a / b)` on integer operands: real-number division rounded
toward negative infinity.  Lean integer `/` is Euclidean division, which for
a positive divisor coincides with floor division. -/
def jsFloorDiv (a b : Int) : Int := a / b

/-- `Math.ceil(a / b)` on integer operands: real-number division rounded
toward positive infinity, expressed through floor division. -/
def jsCeilDiv (a b : Int) : Int := -((-a) / b)

/-- The JavaScript remainder operator `a % b`: truncated remainder, whose
sign follows the dividend.  This is `Int.tmod`, not Lean's Euclidean `%`. -/
def jsRem (a b : Int) : Int := Int.tmod a b

/-- `String.prototype.padStart(n, c)`: left-pad `s` with `c` up to length `n`. -/
def padLeft (s : String) (n : Nat) (c : Char) : String :=
  if n ≤ s.length then s else String.mk (List.replicate (n - s.length) c) ++ s

/-- Proleptic Gregorian civil date `(year, month, day)` of a day count
relative to 1970-01-01 (the calendar computation performed by the JS `Date`
object).  Standard era-based algorithm over floor divisions. -/
def civilFromDays (z0 : Int) : Int × Int × Int :=
  let z := z0 + 719468
  let era := jsFloorDiv z 146097
  let doe := z - era * 146097
  let yoe := jsFloorDiv (doe - jsFloorDiv doe 1460 + jsFloorDiv doe 36524 - jsFloorDiv doe 146096) 365
  let y := yoe + era * 400
  let doy := doe - (365 * yoe + jsFloorDiv yoe 4 - jsFloorDiv yoe 100)
  let mp := jsFloorDiv (5 * doy + 2) 153
  let d := doy - jsFloorDiv (153 * mp + 2) 5 + 1
  let m := if mp < 10 then mp + 3 else mp - 9
  (if m ≤ 2 then y + 1 else y, m, d)

/-- Year field of `Date.prototype.toISOString`: four digits for common
years, sign plus six digits for expanded years. -/
def isoYearString (y : Int) : String :=
  if 0 ≤ y ∧ y ≤ 9999 then padLeft (toString y.toNat) 4 '0'
  else if y < 0 then "-" ++ padLeft (toString (-y).toNat) 6 '0'
  else "+" ++ padLeft (toString y.toNat) 6 '0'

/-- Two-digit zero-padded rendering of a month or day number. -/
def pad2 (n : Int) : String := padLeft (toString n.toNat) 2 '0'

/-- `new Date(ms).toISOString().slice(0, 10)`: the `YYYY-MM-DD` (UTC) date
part of a millisecond epoch timestamp. -/
def isoDateString (ms : Int) : String :=
  let days := jsFloorDiv ms 86400000
  let c := civilFromDays days
  isoYearString c.1 ++ "-" ++ pad2 c.2.1 ++ "-" ++ pad2 c.2.2

/-- Length of the 24-hour payout window in seconds (`PAYOUT_CYCLE_SECONDS`). -/
def PAYOUT_CYCLE_SECONDS : Int := 86400

/-- Milliseconds per day, the modulus used for the window anchor (`86400000`). -/
def MS_PER_DAY : Int := 86400000

/-- A JSON value as it appears in the server's SSE payloads: a number, a
boolean, or `null`. -/
inductive JVal where
  | num (n : Int)
  | bool (b : Bool)
  | null
deriving DecidableEq, Repr

/-- One element of the `clickEvents` log: `{ id, timestamp, orderKey }`. -/
structure ClickEvent where
  id : Nat
  timestamp : Int
  orderKey : String
deriving DecidableEq, Repr

/-- The module-level mutable state of the server process together with the
durable documents it reads and writes.  Fields mirror the JS globals:
`countdownEndAt`, `nistOffsetMs`, `deploymentStartNistMs`, `hasNistSync`,
`visitsDayKeyCache`, `visitsTodayCache`, `visitsDayOffsetMs` and the
`memoryStore` maps.  JS `Map`s keyed by strings become total functions with
the JS miss-default folded in (`dailyVisits` misses behave as the empty set,
`clickCounts` misses as `0` via the source's `?? 0`).  Fields prefixed `fs`
are the Firestore documents (`meta/countdownEndAt`, `meta/visitsDayOffsetMs`,
`meta/deploymentStartNistMs`, `dailyVisits/{dayKey}` count and `visitors`
subcollection, `clickCounts`, `clickEvents`); `dbEnabled` mirrors the
nullability of `db`. -/
structure ServerState where
  dbEnabled : Bool
  countdownEndAt : Int
  nistOffsetMs : Int
  deploymentStartNistMs : Option Int
  hasNistSync : Bool
  visitsDayKeyCache : Option String
  visitsTodayCache : Option Nat
  visitsDayOffsetMs : Option Int
  dailyVisits : String → Finset String
  clickCounts : String → Nat
  clickEvents : List ClickEvent
  fsDailyVisitors : String → Finset String
  fsDailyVisitsCount : String → Option Nat
  fsCountdownEndAt : Option Int
  fsVisitsDayOffsetMs : Option Int
  fsDeploymentStartNistMs : Option Int
  fsClickCounts : String → Nat
  fsClickEvents : List ClickEvent

/-- `getRemainingSeconds`: `Math.max(0, Math.ceil((countdownEndAt - Date.now()) / 1000))`. -/
def getRemainingSeconds (st : ServerState) (now : Int) : Int :=
  let remainingMs := st.countdownEndAt - now
  max 0 (jsCeilDiv remainingMs 1000)

/-- `normalizeOffsetMsNumber`: clamp a stored anchor to `[0, 86400000)` via
the JS double-remainder idiom `((v % 86400000) + 86400000) % 86400000`. -/
def normalizeOffsetMsNumber (v : Int) : Int :=
  jsRem (jsRem v MS_PER_DAY + MS_PER_DAY) MS_PER_DAY

/-- `getNistNowMs`: `Date.now() + nistOffsetMs`. -/
def getNistNowMs (st : ServerState) (now : Int) : Int :=
  now + st.nistOffsetMs

/-- `isNistReadyForWindow`: `hasNistSync && visitsDayOffsetMs !== null`. -/
def isNistReadyForWindow (st : ServerState) : Bool :=
  st.hasNistSync && st.visitsDayOffsetMs.isSome

/-- `getAdjustedNistNowMs`: `getNistNowMs() - (visitsDayOffsetMs ?? 0)`. -/
def getAdjustedNistNowMs (st : ServerState) (now : Int) : Int :=
  getNistNowMs st now - (st.visitsDayOffsetMs.getD 0)

/-- `getPayoutRemainingSeconds`: seconds left in the current 24-hour payout
window, or `null` when the window clock is not ready; an exact boundary
reports the full window instead of `0`. -/
def getPayoutRemainingSeconds (st : ServerState) (now : Int) : Option Int :=
  if !isNistReadyForWindow st then none
  else
    let adjustedSeconds := jsFloorDiv (getAdjustedNistNowMs st now) 1000
    let secondsIntoWindow :=
      jsRem (jsRem adjustedSeconds PAYOUT_CYCLE_SECONDS + PAYOUT_CYCLE_SECONDS) PAYOUT_CYCLE_SECONDS
    let remaining := PAYOUT_CYCLE_SECONDS - secondsIntoWindow
    some (if remaining = 0 then PAYOUT_CYCLE_SECONDS else remaining)

/-- `getNistDayKey`: the `YYYY-MM-DD` day key of the adjusted clock, or
`null` when not ready. -/
def getNistDayKey (st : ServerState) (now : Int) : Option String :=
  if !isNistReadyForWindow st then none
  else some (isoDateString (getAdjustedNistNowMs st now))

/-- `persistCountdownEndAt`: write `meta/countdownEndAt` when Firestore is
enabled, else no-op. -/
def persistCountdownEndAt (st : ServerState) : ServerState :=
  if !st.dbEnabled then st
  else { st with fsCountdownEndAt := some st.countdownEndAt }

/-- `persistVisitsDayOffsetMs`: write the normalized anchor to
`meta/visitsDayOffsetMs` when Firestore is enabled and the anchor is set. -/
def persistVisitsDayOffsetMs (st : ServerState) : ServerState :=
  if !st.dbEnabled then st
  else
    match st.visitsDayOffsetMs with
    | none => st
    | some v => { st with fsVisitsDayOffsetMs := some (normalizeOffsetMsNumber v) }

/-- `refreshVisitsTodayCacheIfNeeded`: drop the caches when not ready; keep
them when the key is current and the count loaded; otherwise reload the
count for the current day key from the active backend (the Firestore read
resolves asynchronously in the source; its eventual cache write is modelled
as taking effect here). -/
def refreshVisitsTodayCacheIfNeeded (st : ServerState) (now : Int) : ServerState :=
  if !isNistReadyForWindow st then
    { st with visitsDayKeyCache := none, visitsTodayCache := none }
  else
    match getNistDayKey st now with
    | none => { st with visitsDayKeyCache := none, visitsTodayCache := none }
    | some dayKey =>
      if st.visitsDayKeyCache = some dayKey ∧ st.visitsTodayCache ≠ none then st
      else
        if !st.dbEnabled then
          { st with visitsDayKeyCache := some dayKey,
                    visitsTodayCache := some (st.dailyVisits dayKey).card }
        else
          { st with visitsDayKeyCache := some dayKey,
                    visitsTodayCache := some ((st.fsDailyVisitsCount dayKey).getD 0) }

/-- `markVisitToday`: credit `clientId` (as `String(clientId)`) into the
current window and return the unique-visitor count, or `null` when the
window clock is not ready.  The in-memory backend inserts into the day's
`Set` and reports its size; the Firestore backend runs the transaction that
reads the day document and the visitor document, returns the stored count
unchanged for an already-credited visitor, and otherwise writes the visitor
marker and the incremented count. -/
def markVisitToday (st : ServerState) (now : Int) (clientId : Nat) : ServerState × Option Nat :=
  if !isNistReadyForWindow st then (st, none)
  else
    match getNistDayKey st now with
    | none => (st, none)
    | some dayKey =>
      let st1 :=
        if st.visitsDayKeyCache ≠ some dayKey then
          { st with visitsDayKeyCache := some dayKey, visitsTodayCache := some 0 }
        else st
      if !st1.dbEnabled then
        let set := insert (toString clientId) (st1.dailyVisits dayKey)
        let st2 := { st1 with
          dailyVisits := Function.update st1.dailyVisits dayKey set,
          visitsTodayCache := some set.card }
        (st2, some set.card)
      else
        let currentCount := (st1.fsDailyVisitsCount dayKey).getD 0
        if toString clientId ∈ st1.fsDailyVisitors dayKey then
          let st2 := { st1 with visitsTodayCache := some currentCount }
          (st2, some currentCount)
        else
          let nextCount := currentCount + 1
          let st2 := { st1 with
            fsDailyVisitors :=
              Function.update st1.fsDailyVisitors dayKey
                (insert (toString clientId) (st1.fsDailyVisitors dayKey)),
            fsDailyVisitsCount := Function.update st1.fsDailyVisitsCount dayKey (some nextCount),
            visitsTodayCache := some nextCount }
          (st2, some nextCount)

/-- Sequential crediting of a list of client ids into the current window
(each call is one `markVisitToday` invocation at the same instant). -/
def creditAll (st : ServerState) (now : Int) (ids : List Nat) : ServerState :=
  ids.foldl (fun s i => (markVisitToday s now i).1) st

/-- `broadcastCountdown`: refresh the visits cache, then push one snapshot
object to every SSE subscriber.  The returned list is the ordered field set
of the `JSON.stringify` payload `{ remaining, endsAt, payoutRemaining,
nistReady, visitsToday }`. -/
def broadcastCountdown (st : ServerState) (now : Int) : ServerState × List (String × JVal) :=
  let st1 := refreshVisitsTodayCacheIfNeeded st now
  (st1,
    [("remaining", JVal.num (getRemainingSeconds st1 now)),
     ("endsAt", JVal.num st1.countdownEndAt),
     ("payoutRemaining",
       match getPayoutRemainingSeconds st1 now with
       | some r => JVal.num r
       | none => JVal.null),
     ("nistReady", JVal.bool (isNistReadyForWindow st1)),
     ("visitsToday",
       if isNistReadyForWindow st1 then
         match st1.visitsTodayCache with
         | some c => JVal.num c
         | none => JVal.null
       else JVal.null)])

/-- The `GET /events` handler: after registering the subscriber it refreshes
the visits cache and immediately writes one `initial` snapshot with the same
field set as the periodic broadcast. -/
def eventsSubscribeSnapshot (st : ServerState) (now : Int) : ServerState × List (String × JVal) :=
  let st1 := refreshVisitsTodayCacheIfNeeded st now
  (st1,
    [("remaining", JVal.num (getRemainingSeconds st1 now)),
     ("endsAt", JVal.num st1.countdownEndAt),
     ("payoutRemaining",
       match getPayoutRemainingSeconds st1 now with
       | some r => JVal.num r
       | none => JVal.null),
     ("nistReady", JVal.bool (isNistReadyForWindow st1)),
     ("visitsToday",
       if isNistReadyForWindow st1 then
         match st1.visitsTodayCache with
         | some c => JVal.num c
         | none => JVal.null
       else JVal.null)])

/-- The `POST /api/click` handler after cookie lookup has produced a client
id (unauthenticated requests are rejected before this point).  An expired
countdown (`remaining === 0`) returns immediately without touching any
state; otherwise the deadline is reset to `now + 60s`, persisted
best-effort, a snapshot is broadcast, and the click is logged in the active
backend.  Returns the final state and the `remaining` value of the JSON
response. -/
def apiClick (st : ServerState) (now : Int) (id : Nat) : ServerState × Int :=
  let remaining := getRemainingSeconds st now
  if remaining = 0 then (st, remaining)
  else
    let stA := { st with countdownEndAt := now + 60000 }
    let stB := persistCountdownEndAt stA
    let stC := (broadcastCountdown stB now).1
    let timestamp := now
    let orderKey := padLeft (toString timestamp) 13 '0' ++ "_" ++ padLeft (toString id) 7 '0'
    let stD :=
      if !stC.dbEnabled then
        { stC with
          clickEvents := stC.clickEvents ++ [⟨id, timestamp, orderKey⟩],
          clickCounts :=
            Function.update stC.clickCounts (toString id) (stC.clickCounts (toString id) + 1) }
      else
        { stC with
          fsClickEvents := stC.fsClickEvents ++ [⟨id, timestamp, orderKey⟩],
          fsClickCounts :=
            Function.update stC.fsClickCounts (toString id) (stC.fsClickCounts (toString id) + 1) }
    (stD, getRemainingSeconds stD now)

/-- `fetchNistDaytimeTimestamp`: try the daytime-protocol hosts in order and
return the first successfully fetched and parsed timestamp.  Each element of
`daytimeOutcomes` is the outcome of one host attempt (socket dialogue plus
`parseNistDaytime`): `some ms` on success, `none` on connection error,
timeout or parse failure.  An exhausted list throws in the source, modelled
as `none`. -/
def fetchNistDaytimeTimestamp (daytimeOutcomes : List (Option Int)) : Option Int :=
  daytimeOutcomes.findSome? id

/-- `fetchNistTimestamp`: try the HTTP(S) endpoints in order (each outcome
is the result of one request plus `normalizeNistMs` extraction; `none`
covers network errors, non-OK statuses and parse failures), then fall back
to the daytime-protocol hosts on total HTTP failure.  Exhausting every
source throws in the source, modelled as `none`. -/
def fetchNistTimestamp (httpOutcomes daytimeOutcomes : List (Option Int)) : Option Int :=
  match httpOutcomes.findSome? id with
  | some nistMs => some nistMs
  | none => fetchNistDaytimeTimestamp daytimeOutcomes

/-- `syncNistTime`: one oracle refresh cycle at local instant `now`.
`fetched` is the result of `fetchNistTimestamp`.  On failure the `catch`
only logs a warning, leaving every piece of oracle state in place.  On
success the offset is recomputed, the legacy deployment-start meta is
written once, the ever-synced flag is set, and — when the window anchor is
unset — the anchor auto-initializes to the current oracle time modulo one
day, is persisted best-effort, the visit caches are reset and a snapshot is
broadcast. -/
def syncNistTime (st : ServerState) (now : Int) (fetched : Option Int) : ServerState :=
  match fetched with
  | none => st
  | some nistMs =>
    let stA : ServerState := { st with nistOffsetMs := nistMs - now }
    let stB : ServerState :=
      if stA.deploymentStartNistMs = none then
        let stA1 : ServerState := { stA with deploymentStartNistMs := some nistMs }
        if stA1.dbEnabled then { stA1 with fsDeploymentStartNistMs := some nistMs } else stA1
      else stA
    let stC : ServerState := { stB with hasNistSync := true }
    if stC.visitsDayOffsetMs = none then
      let nowNist := getNistNowMs stC now
      let stD := { stC with visitsDayOffsetMs := some (jsRem nowNist MS_PER_DAY) }
      let stE := persistVisitsDayOffsetMs stD
      let stF := { stE with visitsDayKeyCache := none, visitsTodayCache := some 0 }
      (broadcastCountdown stF now).1
    else stC

/-- `requireResetToken`: the shared-secret check
`token && req.headers["x-reset-token"] === token`, where `envToken` is
`process.env.RESET_PAYOUT_TOKEN` (`none` when unset) and `headerToken` the
request header (`none` when absent).  An unset or empty environment value is
falsy, so the conjunction short-circuits to false. -/
def requireResetToken (envToken : Option String) (headerToken : Option String) : Bool :=
  match envToken with
  | none => false
  | some t => if t = "" then false else headerToken = some t

/-- Responses of the administrative reset endpoints. -/
inductive ResetResponse where
  | forbidden
  | nistNotReady
  | ok (resetAtNistMs : Int) (newDayKey : Option String)
deriving DecidableEq, Repr

/-- The `POST /api/visits/reset` handler: guarded by the shared-secret
check (`403 FORBIDDEN`) and oracle readiness (`400 NIST_NOT_READY`); on
success it restarts the window by re-anchoring at the current oracle time,
persisting the anchor best-effort, resetting the visit caches and
broadcasting a snapshot. -/
def apiVisitsReset (envToken headerToken : Option String) (st : ServerState) (now : Int) :
    ServerState × ResetResponse :=
  if !requireResetToken envToken headerToken then (st, ResetResponse.forbidden)
  else if !st.hasNistSync then (st, ResetResponse.nistNotReady)
  else
    let nowNist := getNistNowMs st now
    let stA := { st with visitsDayOffsetMs := some (jsRem nowNist MS_PER_DAY) }
    let stB := persistVisitsDayOffsetMs stA
    let stC := { stB with visitsDayKeyCache := none, visitsTodayCache := some 0 }
    let stD := (broadcastCountdown stC now).1
    (stD, ResetResponse.ok nowNist (getNistDayKey stD now))

/-- The `POST /api/payout/reset` handler: kept for backward compatibility,
its body is identical to `/api/visits/reset`. -/
def apiPayoutReset (envToken headerToken : Option String) (st : ServerState) (now : Int) :
    ServerState × ResetResponse :=
  if !requireResetToken envToken headerToken then (st, ResetResponse.forbidden)
  else if !st.hasNistSync then (st, ResetResponse.nistNotReady)
  else
    let nowNist := getNistNowMs st now
    let stA := { st with visitsDayOffsetMs := some (jsRem nowNist MS_PER_DAY) }
    let stB := persistVisitsDayOffsetMs stA
    let stC := { stB with visitsDayKeyCache := none, visitsTodayCache := some 0 }
    let stD := (broadcastCountdown stC now).1
    (stD, ResetResponse.ok nowNist (getNistDayKey stD now))

/-- Number of rungs of the reference payout ladder. -/
def payoutLadderLength : Nat := 40

/-- Modelled from the spec: the repository sources under `src/` contain no
`CycleScheduler` or `PayoutCycleIndex` (the payout ladder and cycle index
are described only by the specification, sections 4.4 and 8).  State of the
scheduler: the tracked `lastObservedWindowKey` and the 1-based, persisted
`PayoutCycleIndex` bounded by the ladder length. -/
structure CycleSchedulerState where
  lastObservedWindowKey : Option String
  payoutCycleIndex : Nat
deriving DecidableEq, Repr

/-- Modelled from the spec: one `CycleScheduler` tick observing `newKey`
(section 4.4).  The first tick after startup only records the key; on
subsequent ticks, if the new key differs from the last and both are
non-null, the index advances by 1, saturating at the ladder length, and the
tracked key is updated; otherwise nothing changes. -/
def cycleTick (sched : CycleSchedulerState) (newKey : Option String) : CycleSchedulerState :=
  match sched.lastObservedWindowKey, newKey with
  | none, k => { sched with lastObservedWindowKey := k }
  | some last, some k =>
    if k ≠ last then
      { lastObservedWindowKey := some k,
        payoutCycleIndex := min (sched.payoutCycleIndex + 1) payoutLadderLength }
    else sched
  | some _, none => sched

/-- A concrete process state for the in-memory backend right after a
successful first oracle sync at epoch instant `0` with an oracle agreeing
with the local clock: anchor `0`, no visits yet, countdown deadline one
minute away. -/
def readyState : ServerState where
  dbEnabled := false
  countdownEndAt := 60000
  nistOffsetMs := 0
  deploymentStartNistMs := some 1
  hasNistSync := true
  visitsDayKeyCache := none
  visitsTodayCache := some 0
  visitsDayOffsetMs := some 0
  dailyVisits := fun _ => ∅
  clickCounts := fun _ => 0
  clickEvents := []
  fsDailyVisitors := fun _ => ∅
  fsDailyVisitsCount := fun _ => none
  fsCountdownEndAt := none
  fsVisitsDayOffsetMs := none
  fsDeploymentStartNistMs := none
  fsClickCounts := fun _ => 0
  fsClickEvents := []

/-- `readyState` with the Firestore backend active. -/
def readyDbState : ServerState :=
  { readyState with dbEnabled := true }

/-- A concrete state whose countdown deadline already lies in the past. -/
def expiredState : ServerState :=
  { readyState with countdownEndAt := 0 }

/-- A concrete state of a process whose oracle has never synced. -/
def neverSyncedState : ServerState :=
  { readyState with
    hasNistSync := false,
    deploymentStartNistMs := none,
    visitsDayOffsetMs := none,
    visitsTodayCache := none }

/-! ### Arithmetic bridge lemmas for the JavaScript remainder -/

/-- The truncated remainder by a positive modulus is greater than the
negated modulus. -/
theorem tmod_lower_bound (a : Int) {n : Int} (hn : 0 < n) : -n < Int.tmod a n := by
  match a, n with
  | Int.ofNat m, Int.ofNat k =>
    have hk : 0 < k := by simpa using hn
    simp only [Int.tmod, Int.ofNat_eq_coe]
    omega
  | Int.negSucc m, Int.ofNat k =>
    have hk : 0 < k := by simpa using hn
    have h1 : Nat.succ m % k < k := Nat.mod_lt _ hk
    simp only [Int.tmod, Int.ofNat_eq_coe]
    omega

/-- The truncated remainder agrees with the Euclidean remainder modulo `n`. -/
theorem tmod_emod (a n : Int) : Int.tmod a n % n = a % n := by
  rw [Int.tmod_def, Int.sub_eq_add_neg, Int.neg_mul_eq_mul_neg]
  exact Int.add_mul_emod_self_left a n (-(a.tdiv n))

/-- The JS double-remainder idiom `((a % n) + n) % n` computes the
mathematical (Euclidean) remainder. -/
theorem jsRem_double (a n : Int) (hn : 0 < n) : jsRem (jsRem a n + n) n = a % n := by
  unfold jsRem
  have hlow : 0 ≤ Int.tmod a n + n := by have := tmod_lower_bound a hn; omega
  rw [Int.tmod_eq_emod hlow (Int.le_of_lt hn)]
  have h2 : Int.tmod a n + n = Int.tmod a n + n * 1 := by ring
  rw [h2, Int.add_mul_emod_self_left, tmod_emod]

/-- On non-negative operands the JS remainder is the Euclidean remainder. -/
theorem jsRem_eq_emod (a n : Int) (ha : 0 ≤ a) (hn : 0 ≤ n) : jsRem a n = a % n :=
  Int.tmod_eq_emod ha hn

/-! ### Claim theorems -/

/-- C4: whenever the window clock is ready, `getPayoutRemainingSeconds`
returns an integer in the half-open range `(0, 86400]`, equal to
`86400 - (floor(adjustedNow() / 1000) mod 86400)` with an exact-zero
remainder reporting `86400`, so it is never `0`. -/
theorem payout_remaining_bounds (st : ServerState) (now : Int)
    (h : isNistReadyForWindow st = true) :
    ∃ r, getPayoutRemainingSeconds st now = some r ∧ 0 < r ∧ r ≤ 86400 ∧
      r = (if jsFloorDiv (getAdjustedNistNowMs st now) 1000 % 86400 = 0 then (86400 : Int)
           else 86400 - jsFloorDiv (getAdjustedNistNowMs st now) 1000 % 86400) := by
  have h86 : (0 : Int) < 86400 := by norm_num
  have hm0 : 0 ≤ jsFloorDiv (getAdjustedNistNowMs st now) 1000 % 86400 :=
    Int.emod_nonneg _ (by norm_num)
  have hm1 : jsFloorDiv (getAdjustedNistNowMs st now) 1000 % 86400 < 86400 :=
    Int.emod_lt_of_pos _ h86
  refine ⟨_, ?_, ?_, ?_, rfl⟩
  · simp only [getPayoutRemainingSeconds, h, Bool.not_true, Bool.false_eq_true, if_false,
      PAYOUT_CYCLE_SECONDS, jsRem_double _ _ h86]
    rw [Option.some_inj]
    split <;> split <;> omega
  · split <;> omega
  · split <;> omega

/-- C4 witness: the bound theorem applied to a concrete ready state. -/
theorem payout_remaining_bounds_witness :
    isNistReadyForWindow readyState = true ∧
    getPayoutRemainingSeconds readyState 5000 = some 86395 := by
  have h : isNistReadyForWindow readyState = true := by decide
  obtain ⟨r, h1, h2, h3, h4⟩ := payout_remaining_bounds readyState 5000 h
  subst h4
  refine ⟨h, ?_⟩
  rw [h1]
  decide

/-- C10 -/
theorem reset_token_unset_forbidden (headerToken : Option String) (st : ServerState) (now : Int) :
    requireResetToken none headerToken = false
    ∧ apiVisitsReset none headerToken st now = (st, ResetResponse.forbidden)
    ∧ apiPayoutReset none headerToken st now = (st, ResetResponse.forbidden)
    ∧ (apiVisitsReset none headerToken st now).1.visitsDayOffsetMs = st.visitsDayOffsetMs :=
  ⟨rfl, rfl, rfl, rfl⟩

/-- C8 amended -/
theorem snapshot_field_list (st : ServerState) (now : Int) :
    ((broadcastCountdown st now).2.map Prod.fst) =
      ["remaining", "endsAt", "payoutRemaining", "nistReady", "visitsToday"]
    ∧ ((eventsSubscribeSnapshot st now).2.map Prod.fst) =
      ["remaining", "endsAt", "payoutRemaining", "nistReady", "visitsToday"] :=
  ⟨rfl, rfl⟩

/-- C8 counterexample -/
theorem snapshot_missing_payoutValue :
    ("payoutValue" ∉ ((broadcastCountdown readyState 1000).2.map Prod.fst))
    ∧ ("payoutValue" ∉ ((eventsSubscribeSnapshot readyState 1000).2.map Prod.fst)) := by
  decide

/-- C6 -/
theorem never_synced_window_null (st : ServerState) (now : Int) (id : Nat)
    (h : st.hasNistSync = false) :
    isNistReadyForWindow st = false
    ∧ getNistDayKey st now = none
    ∧ getPayoutRemainingSeconds st now = none
    ∧ (markVisitToday st now id).2 = none
    ∧ (broadcastCountdown st now).2 =
        [("remaining", JVal.num (getRemainingSeconds st now)),
         ("endsAt", JVal.num st.countdownEndAt),
         ("payoutRemaining", JVal.null),
         ("nistReady", JVal.bool false),
         ("visitsToday", JVal.null)]
    ∧ getRemainingSeconds st now = max 0 (jsCeilDiv (st.countdownEndAt - now) 1000) := by
  have hr : isNistReadyForWindow st = false := by
    simp [isNistReadyForWindow, h]
  refine ⟨hr, ?_, ?_, ?_, ?_, rfl⟩
  · simp [getNistDayKey, hr]
  · simp [getPayoutRemainingSeconds, hr]
  · simp [markVisitToday, hr]
  · have hr2 : isNistReadyForWindow (refreshVisitsTodayCacheIfNeeded st now) = false := by
      simp [refreshVisitsTodayCacheIfNeeded, hr, isNistReadyForWindow, h]
    simp [broadcastCountdown, getPayoutRemainingSeconds, hr2]
    simp [refreshVisitsTodayCacheIfNeeded, hr, getRemainingSeconds]

/-- C6 witness -/
theorem never_synced_window_null_witness :
    neverSyncedState.hasNistSync = false ∧
    getPayoutRemainingSeconds neverSyncedState 1000 = none ∧
    (markVisitToday neverSyncedState 1000 5).2 = none := by
  have h := never_synced_window_null neverSyncedState 1000 5 rfl
  exact ⟨rfl, h.2.2.1, h.2.2.2.1⟩

/-- C7 -/
theorem oracle_all_fail_no_change (st : ServerState) (now : Int)
    (httpOutcomes daytimeOutcomes : List (Option Int))
    (h1 : ∀ x ∈ httpOutcomes, x = none) (h2 : ∀ x ∈ daytimeOutcomes, x = none) :
    fetchNistTimestamp httpOutcomes daytimeOutcomes = none
    ∧ syncNistTime st now (fetchNistTimestamp httpOutcomes daytimeOutcomes) = st
    ∧ (syncNistTime st now (fetchNistTimestamp httpOutcomes daytimeOutcomes)).nistOffsetMs
        = st.nistOffsetMs
    ∧ (syncNistTime st now (fetchNistTimestamp httpOutcomes daytimeOutcomes)).hasNistSync
        = st.hasNistSync
    ∧ getAdjustedNistNowMs (syncNistTime st now (fetchNistTimestamp httpOutcomes daytimeOutcomes)) now
        = getAdjustedNistNowMs st now := by
  have hf : fetchNistTimestamp httpOutcomes daytimeOutcomes = none := by
    unfold fetchNistTimestamp fetchNistDaytimeTimestamp
    have e1 : httpOutcomes.findSome? id = none := by
      rw [List.findSome?_eq_none_iff]
      intro x hx
      exact h1 x hx
    have e2 : daytimeOutcomes.findSome? id = none := by
      rw [List.findSome?_eq_none_iff]
      intro x hx
      exact h2 x hx
    rw [e1, e2]
  rw [hf]
  exact ⟨rfl, rfl, rfl, rfl, rfl⟩

/-- C7 witness -/
theorem oracle_all_fail_no_change_witness :
    fetchNistTimestamp [none, none] [none, none, none, none, none] = none
    ∧ syncNistTime readyState 99 (fetchNistTimestamp [none, none] [none, none, none, none, none])
        = readyState := by
  have h := oracle_all_fail_no_change readyState 99 [none, none] [none, none, none, none, none]
    (by intro x hx; simpa using hx) (by intro x hx; simpa using hx)
  exact ⟨h.1, h.2.1⟩

/-- C3 -/
theorem cycle_index_advance (sched : CycleSchedulerState) :
    (∀ k, sched.lastObservedWindowKey = none →
      cycleTick sched k = { sched with lastObservedWindowKey := k })
    ∧ (∀ last k, sched.lastObservedWindowKey = some last → k ≠ last →
      sched.payoutCycleIndex < payoutLadderLength →
      (cycleTick sched (some k)).payoutCycleIndex = sched.payoutCycleIndex + 1)
    ∧ (∀ last k, sched.lastObservedWindowKey = some last → k ≠ last →
      (cycleTick sched (some k)).payoutCycleIndex
        = min (sched.payoutCycleIndex + 1) payoutLadderLength
      ∧ (cycleTick sched (some k)).lastObservedWindowKey = some k)
    ∧ (∀ k, sched.payoutCycleIndex ≤ payoutLadderLength →
      sched.payoutCycleIndex ≤ (cycleTick sched k).payoutCycleIndex)
    ∧ (∀ k, (cycleTick sched k).payoutCycleIndex ≤ sched.payoutCycleIndex + 1)
    ∧ (∀ k, sched.payoutCycleIndex ≤ payoutLadderLength →
      (cycleTick sched k).payoutCycleIndex ≤ payoutLadderLength)
    ∧ (∀ k, sched.lastObservedWindowKey = some k → cycleTick sched (some k) = sched)
    ∧ (∀ last k, sched.lastObservedWindowKey = some last →
      sched.payoutCycleIndex = payoutLadderLength →
      (cycleTick sched k).payoutCycleIndex = payoutLadderLength) := by
  refine ⟨?_, ?_, ?_, ?_, ?_, ?_, ?_, ?_⟩
  · intro k h
    simp [cycleTick, h]
  · intro last k h hk hlt
    simp only [cycleTick, h]
    rw [if_pos hk]
    simp only [payoutLadderLength] at hlt ⊢
    omega
  · intro last k h hk
    simp only [cycleTick, h]
    rw [if_pos hk]
    exact ⟨rfl, rfl⟩
  · intro k hle
    unfold cycleTick
    rcases hL : sched.lastObservedWindowKey with _ | last
    · rcases k with _ | k <;> simp
    · rcases k with _ | k
      · simp
      · simp only []
        split
        · simp only [payoutLadderLength] at hle ⊢
          omega
        · simp
  · intro k
    unfold cycleTick
    rcases hL : sched.lastObservedWindowKey with _ | last
    · rcases k with _ | k <;> simp
    · rcases k with _ | k
      · simp
      · simp only []
        split
        · simp only [payoutLadderLength]
          omega
        · simp
  · intro k hle
    unfold cycleTick
    rcases hL : sched.lastObservedWindowKey with _ | last
    · rcases k with _ | k <;> simpa using hle
    · rcases k with _ | k
      · simpa using hle
      · simp only []
        split
        · simp only [payoutLadderLength] at hle ⊢
          omega
        · simpa using hle
  · intro k h
    simp [cycleTick, h]
  · intro last k h hmax
    unfold cycleTick
    rw [h]
    rcases k with _ | k
    · simpa using hmax
    · simp only []
      split
      · simp only [payoutLadderLength] at hmax ⊢
        omega
      · simpa using hmax

/-- C3 witness -/
theorem cycle_index_advance_witness :
    (cycleTick ⟨some "W1", 5⟩ (some "W2")).payoutCycleIndex = 6
    ∧ (cycleTick ⟨some "W1", 40⟩ (some "W2")).payoutCycleIndex = 40
    ∧ cycleTick ⟨some "W1", 5⟩ (some "W1") = ⟨some "W1", 5⟩
    ∧ cycleTick ⟨none, 5⟩ (some "W1") = ⟨some "W1", 5⟩ := by
  have h5 := cycle_index_advance ⟨some "W1", 5⟩
  have h40 := cycle_index_advance ⟨some "W1", 40⟩
  have h0 := cycle_index_advance ⟨none, 5⟩
  refine ⟨?_, ?_, ?_, ?_⟩
  · exact h5.2.1 "W1" "W2" rfl (by decide) (by decide)
  · exact h40.2.2.2.2.2.2.2 "W1" (some "W2") rfl rfl
  · exact h5.2.2.2.2.2.2.1 "W1" rfl
  · exact h0.1 (some "W1") rfl

/-- Refreshing the visits cache never touches the countdown deadline, the
backend flag, the oracle fields, or the persisted countdown document. -/
theorem refresh_preserves (st : ServerState) (now : Int) :
    (refreshVisitsTodayCacheIfNeeded st now).countdownEndAt = st.countdownEndAt
    ∧ (refreshVisitsTodayCacheIfNeeded st now).dbEnabled = st.dbEnabled
    ∧ (refreshVisitsTodayCacheIfNeeded st now).fsCountdownEndAt = st.fsCountdownEndAt
    ∧ (refreshVisitsTodayCacheIfNeeded st now).hasNistSync = st.hasNistSync
    ∧ (refreshVisitsTodayCacheIfNeeded st now).visitsDayOffsetMs = st.visitsDayOffsetMs
    ∧ (refreshVisitsTodayCacheIfNeeded st now).nistOffsetMs = st.nistOffsetMs := by
  unfold refreshVisitsTodayCacheIfNeeded
  repeat' split
  all_goals exact ⟨rfl, rfl, rfl, rfl, rfl, rfl⟩

theorem broadcast_fst (st : ServerState) (now : Int) :
    (broadcastCountdown st now).1 = refreshVisitsTodayCacheIfNeeded st now := rfl

theorem refresh_countdownEndAt (st : ServerState) (now : Int) :
    (refreshVisitsTodayCacheIfNeeded st now).countdownEndAt = st.countdownEndAt :=
  (refresh_preserves st now).1

theorem refresh_fsCountdownEndAt (st : ServerState) (now : Int) :
    (refreshVisitsTodayCacheIfNeeded st now).fsCountdownEndAt = st.fsCountdownEndAt :=
  (refresh_preserves st now).2.2.1

theorem persistCountdown_countdownEndAt (st : ServerState) :
    (persistCountdownEndAt st).countdownEndAt = st.countdownEndAt := by
  unfold persistCountdownEndAt
  split <;> rfl

theorem persistCountdown_fs (st : ServerState) :
    (persistCountdownEndAt st).fsCountdownEndAt
      = (if st.dbEnabled then some st.countdownEndAt else st.fsCountdownEndAt) := by
  unfold persistCountdownEndAt
  rcases hdb : st.dbEnabled with _ | _ <;> simp [hdb]

/-- C2 (amended) -/
theorem click_reset_when_unexpired (st : ServerState) (now : Int) (id : Nat)
    (h : getRemainingSeconds st now ≠ 0) :
    (apiClick st now id).1.countdownEndAt = now + 60000
    ∧ getRemainingSeconds (apiClick st now id).1 now = 60
    ∧ (apiClick st now id).2 = 60
    ∧ (st.dbEnabled = true → (apiClick st now id).1.fsCountdownEndAt = some (now + 60000)) := by
  have h1 : (apiClick st now id).1.countdownEndAt = now + 60000 := by
    simp only [apiClick]
    rw [if_neg h]
    split <;> simp [broadcast_fst, refresh_countdownEndAt, persistCountdown_countdownEndAt]
  have h2 : getRemainingSeconds (apiClick st now id).1 now = 60 := by
    simp only [getRemainingSeconds, h1]
    have e : now + 60000 - now = 60000 := by ring
    rw [e]
    decide
  have h3 : (apiClick st now id).2 = getRemainingSeconds (apiClick st now id).1 now := by
    simp only [apiClick]
    rw [if_neg h]
  have h4 : st.dbEnabled = true → (apiClick st now id).1.fsCountdownEndAt = some (now + 60000) := by
    intro hdb
    simp only [apiClick]
    rw [if_neg h]
    split <;>
      simp [broadcast_fst, refresh_fsCountdownEndAt, persistCountdown_fs, hdb]
  exact ⟨h1, h2, h3.trans h2, h4⟩

/-- C2 witness -/
theorem click_reset_when_unexpired_witness :
    getRemainingSeconds readyState 1000 ≠ 0
    ∧ (apiClick readyState 1000 7).1.countdownEndAt = 1000 + 60000
    ∧ (apiClick readyState 1000 7).2 = 60 := by
  have h : getRemainingSeconds readyState 1000 ≠ 0 := by decide
  have hm := click_reset_when_unexpired readyState 1000 7 h
  exact ⟨h, hm.1, hm.2.2.1⟩

/-- C2 counterexample: a click arriving while the countdown is expired
leaves the state untouched and reports 0, not 60. -/
theorem click_expired_no_reset :
    getRemainingSeconds expiredState 1000 = 0
    ∧ apiClick expiredState 1000 7 = (expiredState, 0)
    ∧ (apiClick expiredState 1000 7).1.countdownEndAt ≠ 1000 + 60000
    ∧ (apiClick expiredState 1000 7).2 ≠ 60 := by
  refine ⟨by decide, rfl, by decide, by decide⟩

theorem refresh_fsVisitsDayOffsetMs (st : ServerState) (now : Int) :
    (refreshVisitsTodayCacheIfNeeded st now).fsVisitsDayOffsetMs = st.fsVisitsDayOffsetMs := by
  unfold refreshVisitsTodayCacheIfNeeded
  repeat' split
  all_goals rfl

theorem persistVisits_visitsDayOffsetMs (st : ServerState) :
    (persistVisitsDayOffsetMs st).visitsDayOffsetMs = st.visitsDayOffsetMs := by
  unfold persistVisitsDayOffsetMs
  repeat' split
  all_goals rfl

theorem persistVisits_nistOffsetMs (st : ServerState) :
    (persistVisitsDayOffsetMs st).nistOffsetMs = st.nistOffsetMs := by
  unfold persistVisitsDayOffsetMs
  repeat' split
  all_goals rfl

theorem persistVisits_hasNistSync (st : ServerState) :
    (persistVisitsDayOffsetMs st).hasNistSync = st.hasNistSync := by
  unfold persistVisitsDayOffsetMs
  repeat' split
  all_goals rfl

theorem persistVisits_dbEnabled (st : ServerState) :
    (persistVisitsDayOffsetMs st).dbEnabled = st.dbEnabled := by
  unfold persistVisitsDayOffsetMs
  repeat' split
  all_goals rfl

theorem persistVisits_fs (st : ServerState) :
    (persistVisitsDayOffsetMs st).fsVisitsDayOffsetMs
      = (if st.dbEnabled then
          (match st.visitsDayOffsetMs with
           | none => st.fsVisitsDayOffsetMs
           | some v => some (normalizeOffsetMsNumber v))
         else st.fsVisitsDayOffsetMs) := by
  unfold persistVisitsDayOffsetMs
  rcases hdb : st.dbEnabled with _ | _
  · simp [hdb]
  · rcases hv : st.visitsDayOffsetMs with _ | v <;> simp [hdb, hv]

theorem refresh_visitsDayOffsetMs (st : ServerState) (now : Int) :
    (refreshVisitsTodayCacheIfNeeded st now).visitsDayOffsetMs = st.visitsDayOffsetMs :=
  (refresh_preserves st now).2.2.2.2.1

theorem refresh_nistOffsetMs (st : ServerState) (now : Int) :
    (refreshVisitsTodayCacheIfNeeded st now).nistOffsetMs = st.nistOffsetMs :=
  (refresh_preserves st now).2.2.2.2.2

theorem refresh_hasNistSync (st : ServerState) (now : Int) :
    (refreshVisitsTodayCacheIfNeeded st now).hasNistSync = st.hasNistSync :=
  (refresh_preserves st now).2.2.2.1

/-- Projections of `syncNistTime` on a successful fetch while the anchor is
unset: the offset is recomputed, the sync flag set, the anchor initialized
to the oracle time modulo one day and persisted when the backend is on. -/
theorem syncNist_autoinit_proj (st : ServerState) (now T : Int)
    (hanchor : st.visitsDayOffsetMs = none) :
    (syncNistTime st now (some T)).visitsDayOffsetMs = some (jsRem (now + (T - now)) MS_PER_DAY)
    ∧ (syncNistTime st now (some T)).nistOffsetMs = T - now
    ∧ (syncNistTime st now (some T)).hasNistSync = true
    ∧ (syncNistTime st now (some T)).fsVisitsDayOffsetMs
        = (if st.dbEnabled then some (normalizeOffsetMsNumber (jsRem (now + (T - now)) MS_PER_DAY))
           else st.fsVisitsDayOffsetMs) := by
  simp only [syncNistTime, getNistNowMs]
  split
  all_goals try split
  all_goals simp only [hanchor, if_true, broadcast_fst, refresh_visitsDayOffsetMs,
    refresh_nistOffsetMs, refresh_hasNistSync, refresh_fsVisitsDayOffsetMs]
  all_goals refine ⟨?_, ?_, ?_, ?_⟩ <;>
    simp [persistVisits_visitsDayOffsetMs, persistVisits_nistOffsetMs,
      persistVisits_hasNistSync, persistVisits_fs, *]

/-- At an exact multiple of the day length on the adjusted clock the payout
window reports its full 24 hours. -/
theorem payout_full_at_boundary (st : ServerState) (now : Int)
    (hready : isNistReadyForWindow st = true) (q : Int)
    (hadj : getAdjustedNistNowMs st now = MS_PER_DAY * q) :
    getPayoutRemainingSeconds st now = some 86400 := by
  unfold getPayoutRemainingSeconds
  simp only [hready, Bool.not_true, Bool.false_eq_true, if_false]
  rw [hadj]
  have e1 : jsFloorDiv (MS_PER_DAY * q) 1000 = 86400 * q := by
    unfold jsFloorDiv MS_PER_DAY
    have e : (86400000 : Int) * q = 1000 * (86400 * q) := by ring
    rw [e, Int.mul_ediv_cancel_left _ (by norm_num)]
  rw [e1]
  have e2 : jsRem (86400 * q) PAYOUT_CYCLE_SECONDS = 0 := by
    unfold jsRem PAYOUT_CYCLE_SECONDS
    exact Int.mul_tmod_right 86400 q
  rw [e2]
  have e3 : jsRem (0 + PAYOUT_CYCLE_SECONDS) PAYOUT_CYCLE_SECONDS = 0 := by
    unfold jsRem PAYOUT_CYCLE_SECONDS
    norm_num
  rw [e3]
  norm_num [PAYOUT_CYCLE_SECONDS]

/-- C5 -/
theorem anchor_autoinit_full_window (st : ServerState) (now T : Int)
    (hT : 0 ≤ T) (hanchor : st.visitsDayOffsetMs = none) :
    (syncNistTime st now (some T)).visitsDayOffsetMs = some (T % MS_PER_DAY)
    ∧ 0 ≤ T % MS_PER_DAY ∧ T % MS_PER_DAY < MS_PER_DAY
    ∧ (st.dbEnabled = true →
        (syncNistTime st now (some T)).fsVisitsDayOffsetMs = some (T % MS_PER_DAY))
    ∧ getPayoutRemainingSeconds (syncNistTime st now (some T)) now = some 86400 := by
  obtain ⟨p1, p2, p3, p4⟩ := syncNist_autoinit_proj st now T hanchor
  have hTT : now + (T - now) = T := by ring
  rw [hTT] at p1 p4
  have hM : (0 : Int) < MS_PER_DAY := by norm_num [MS_PER_DAY]
  have hrem : jsRem T MS_PER_DAY = T % MS_PER_DAY := jsRem_eq_emod T MS_PER_DAY hT (le_of_lt hM)
  have hnorm : normalizeOffsetMsNumber (jsRem T MS_PER_DAY) = T % MS_PER_DAY := by
    unfold normalizeOffsetMsNumber
    rw [jsRem_double _ _ hM]
    simp only [jsRem]
    exact tmod_emod T MS_PER_DAY
  rw [hrem] at p1
  rw [hnorm] at p4
  have hready : isNistReadyForWindow (syncNistTime st now (some T)) = true := by
    simp [isNistReadyForWindow, p3, p1]
  have hadj : getAdjustedNistNowMs (syncNistTime st now (some T)) now
      = MS_PER_DAY * (T / MS_PER_DAY) := by
    simp only [getAdjustedNistNowMs, getNistNowMs, p2, p1, Option.getD_some]
    simp only [MS_PER_DAY]
    omega
  refine ⟨p1, Int.emod_nonneg T (by omega), Int.emod_lt_of_pos T hM, ?_, ?_⟩
  · intro hdb
    rw [p4, if_pos hdb]
  · exact payout_full_at_boundary _ now hready (T / MS_PER_DAY) hadj

/-- C5 witness -/
theorem anchor_autoinit_full_window_witness :
    (0 : Int) ≤ 1728000000123
    ∧ neverSyncedState.visitsDayOffsetMs = none
    ∧ (syncNistTime neverSyncedState 500 (some 1728000000123)).visitsDayOffsetMs
        = some (1728000000123 % MS_PER_DAY)
    ∧ getPayoutRemainingSeconds (syncNistTime neverSyncedState 500 (some 1728000000123)) 500
        = some 86400 := by
  have h := anchor_autoinit_full_window neverSyncedState 500 1728000000123 (by norm_num) rfl
  exact ⟨by norm_num, rfl, h.1, h.2.2.2.2⟩

/-- A day key is only produced when the window clock is ready. -/
theorem dayKey_some_ready (st : ServerState) (now : Int) (w : String)
    (hw : getNistDayKey st now = some w) : isNistReadyForWindow st = true := by
  by_cases h : isNistReadyForWindow st = true
  · exact h
  · rw [getNistDayKey, if_pos (by simpa using h)] at hw
    cases hw

/-- Crediting a visit never touches the oracle fields, the anchor, or the
backend flag. -/
theorem markVisit_preserves (st : ServerState) (now : Int) (id : Nat) :
    ((markVisitToday st now id).1).hasNistSync = st.hasNistSync
    ∧ ((markVisitToday st now id).1).visitsDayOffsetMs = st.visitsDayOffsetMs
    ∧ ((markVisitToday st now id).1).nistOffsetMs = st.nistOffsetMs
    ∧ ((markVisitToday st now id).1).dbEnabled = st.dbEnabled := by
  simp only [markVisitToday]
  repeat' split
  all_goals exact ⟨rfl, rfl, rfl, rfl⟩

/-- Crediting a visit leaves the current day key unchanged. -/
theorem markVisit_dayKey (st : ServerState) (now : Int) (id : Nat) :
    getNistDayKey ((markVisitToday st now id).1) now = getNistDayKey st now := by
  obtain ⟨p1, p2, p3, p4⟩ := markVisit_preserves st now id
  unfold getNistDayKey isNistReadyForWindow getAdjustedNistNowMs getNistNowMs
  rw [p1, p2, p3]

/-- In-memory branch of `markVisitToday`: the day's set gains the identity
string and the returned count is the new set size. -/
theorem markVisit_mem (st : ServerState) (now : Int) (id : Nat) (w : String)
    (hw : getNistDayKey st now = some w) (hdb : st.dbEnabled = false) :
    ((markVisitToday st now id).1).dailyVisits w = insert (toString id) (st.dailyVisits w)
    ∧ (markVisitToday st now id).2 = some ((insert (toString id) (st.dailyVisits w)).card)
    ∧ ((markVisitToday st now id).1).dbEnabled = false := by
  have hready := dayKey_some_ready st now w hw
  unfold markVisitToday
  simp only [hready, Bool.not_true, Bool.false_eq_true, if_false, hw]
  split
  · simp [hdb, Function.update_same]
  · simp [hdb, Function.update_same]

/-- Firestore branch of `markVisitToday`: under the transaction, the
visitor set gains the identity string, the stored count follows the set
cardinality (given it matched before), the count document is written only
for a new visitor, and the new cardinality is returned. -/
theorem markVisit_db (st : ServerState) (now : Int) (id : Nat) (w : String)
    (hw : getNistDayKey st now = some w) (hdb : st.dbEnabled = true)
    (hcount : (st.fsDailyVisitsCount w).getD 0 = (st.fsDailyVisitors w).card) :
    ((markVisitToday st now id).1).fsDailyVisitors w
        = insert (toString id) (st.fsDailyVisitors w)
    ∧ (((markVisitToday st now id).1).fsDailyVisitsCount w).getD 0
        = (insert (toString id) (st.fsDailyVisitors w)).card
    ∧ (markVisitToday st now id).2 = some ((insert (toString id) (st.fsDailyVisitors w)).card)
    ∧ ((markVisitToday st now id).1).fsDailyVisitsCount w
        = (if toString id ∈ st.fsDailyVisitors w then st.fsDailyVisitsCount w
           else some ((st.fsDailyVisitsCount w).getD 0 + 1))
    ∧ ((markVisitToday st now id).1).dbEnabled = true := by
  have hready := dayKey_some_ready st now w hw
  unfold markVisitToday
  simp only [hready, Bool.not_true, Bool.false_eq_true, if_false, hw]
  by_cases hmem : toString id ∈ st.fsDailyVisitors w
  · rw [Finset.insert_eq_self.mpr hmem]
    split <;> simp [hdb, hmem, hcount]
  · have hcard : (insert (toString id) (st.fsDailyVisitors w)).card
        = (st.fsDailyVisitors w).card + 1 := Finset.card_insert_of_not_mem hmem
    split <;> simp [hdb, hmem, hcount, hcard, Function.update_same]

/-- Folding credits over the in-memory backend accumulates exactly the set
of credited identity strings into the day's set. -/
theorem creditAll_mem_spec (now : Int) (w : String) :
    ∀ (l : List Nat) (st : ServerState),
      getNistDayKey st now = some w → st.dbEnabled = false →
      (creditAll st now l).dailyVisits w
          = st.dailyVisits w ∪ (l.map (fun i => toString i)).toFinset
      ∧ getNistDayKey (creditAll st now l) now = some w
      ∧ (creditAll st now l).dbEnabled = false := by
  intro l
  induction l with
  | nil =>
    intro st hw hdb
    exact ⟨by simp [creditAll], by simpa [creditAll] using hw, by simpa [creditAll] using hdb⟩
  | cons a t ih =>
    intro st hw hdb
    have hstep := markVisit_mem st now a w hw hdb
    have hkey : getNistDayKey ((markVisitToday st now a).1) now = some w := by
      rw [markVisit_dayKey]; exact hw
    have e := ih ((markVisitToday st now a).1) hkey hstep.2.2
    have hfold : creditAll st now (a :: t) = creditAll ((markVisitToday st now a).1) now t := rfl
    refine ⟨?_, hfold ▸ e.2.1, hfold ▸ e.2.2⟩
    rw [hfold, e.1, hstep.1]
    simp [List.map_cons, List.toFinset_cons, Finset.insert_union, Finset.union_insert]

/-- Folding credits over the Firestore backend accumulates the credited
identity strings into the visitor set while the count document tracks the
set cardinality. -/
theorem creditAll_db_spec (now : Int) (w : String) :
    ∀ (l : List Nat) (st : ServerState),
      getNistDayKey st now = some w → st.dbEnabled = true →
      (st.fsDailyVisitsCount w).getD 0 = (st.fsDailyVisitors w).card →
      (creditAll st now l).fsDailyVisitors w
          = st.fsDailyVisitors w ∪ (l.map (fun i => toString i)).toFinset
      ∧ ((creditAll st now l).fsDailyVisitsCount w).getD 0
          = ((creditAll st now l).fsDailyVisitors w).card
      ∧ getNistDayKey (creditAll st now l) now = some w
      ∧ (creditAll st now l).dbEnabled = true := by
  intro l
  induction l with
  | nil =>
    intro st hw hdb hc
    exact ⟨by simp [creditAll], by simpa [creditAll] using hc,
      by simpa [creditAll] using hw, by simpa [creditAll] using hdb⟩
  | cons a t ih =>
    intro st hw hdb hc
    have hstep := markVisit_db st now a w hw hdb hc
    have hkey : getNistDayKey ((markVisitToday st now a).1) now = some w := by
      rw [markVisit_dayKey]; exact hw
    have hc1 : (((markVisitToday st now a).1).fsDailyVisitsCount w).getD 0
        = (((markVisitToday st now a).1).fsDailyVisitors w).card := by
      rw [hstep.2.1, hstep.1]
    have e := ih ((markVisitToday st now a).1) hkey hstep.2.2.2.2 hc1
    have hfold : creditAll st now (a :: t) = creditAll ((markVisitToday st now a).1) now t := rfl
    refine ⟨?_, hfold ▸ e.2.1, hfold ▸ e.2.2.1, hfold ▸ e.2.2.2⟩
    rw [hfold, e.1, hstep.1]
    simp [List.map_cons, List.toFinset_cons, Finset.insert_union, Finset.union_insert]

/-- C1 -/
theorem credit_count_distinct (st : ServerState) (now : Int) (w : String)
    (hw : getNistDayKey st now = some w) :
    (st.dbEnabled = false → st.dailyVisits w = ∅ →
      (∀ l : List Nat,
        ((creditAll st now l).dailyVisits w).card
          = ((l.map (fun i => toString i)).toFinset).card)
      ∧ (∀ (l : List Nat) (a : Nat),
        (markVisitToday (creditAll st now l) now a).2
          = some ((((l ++ [a]).map (fun i => toString i)).toFinset).card))
      ∧ (∀ (l : List Nat) (a : Nat), a ∈ l →
        (markVisitToday (creditAll st now l) now a).2
          = some (((l.map (fun i => toString i)).toFinset).card)
        ∧ ((markVisitToday (creditAll st now l) now a).1).dailyVisits w
          = (creditAll st now l).dailyVisits w)
      ∧ (∀ (l : List Nat) (a : Nat), toString a ∉ l.map (fun i => toString i) →
        (markVisitToday (creditAll st now l) now a).2
          = some (((l.map (fun i => toString i)).toFinset).card + 1)))
    ∧ (st.dbEnabled = true → st.fsDailyVisitors w = ∅ → st.fsDailyVisitsCount w = none →
      (∀ l : List Nat,
        ((creditAll st now l).fsDailyVisitors w).card
          = ((l.map (fun i => toString i)).toFinset).card)
      ∧ (∀ (l : List Nat) (a : Nat),
        (markVisitToday (creditAll st now l) now a).2
          = some ((((l ++ [a]).map (fun i => toString i)).toFinset).card))) := by
  constructor
  · intro hdb hempty
    have visits_eq : ∀ l : List Nat,
        (creditAll st now l).dailyVisits w = (l.map (fun i => toString i)).toFinset := by
      intro l
      rw [(creditAll_mem_spec now w l st hw hdb).1, hempty, Finset.empty_union]
    refine ⟨?_, ?_, ?_, ?_⟩
    · intro l
      rw [visits_eq l]
    · intro l a
      have e := creditAll_mem_spec now w l st hw hdb
      have h := markVisit_mem (creditAll st now l) now a w e.2.1 e.2.2
      rw [h.2.1, visits_eq l]
      congr 1
      simp [List.map_append, List.toFinset_append, Finset.insert_eq, Finset.union_comm]
    · intro l a ha
      have e := creditAll_mem_spec now w l st hw hdb
      have h := markVisit_mem (creditAll st now l) now a w e.2.1 e.2.2
      have hmem : toString a ∈ (creditAll st now l).dailyVisits w := by
        rw [visits_eq l]
        simp only [List.mem_toFinset, List.mem_map]
        exact ⟨a, ha, rfl⟩
      constructor
      · rw [h.2.1, Finset.insert_eq_self.mpr hmem, visits_eq l]
      · rw [h.1, Finset.insert_eq_self.mpr hmem]
    · intro l a ha
      have e := creditAll_mem_spec now w l st hw hdb
      have h := markVisit_mem (creditAll st now l) now a w e.2.1 e.2.2
      have hnot : toString a ∉ (creditAll st now l).dailyVisits w := by
        rw [visits_eq l]
        simpa using ha
      rw [h.2.1, visits_eq l, Finset.card_insert_of_not_mem (by rwa [visits_eq l] at hnot)]
  · intro hdb hvis hcount
    have hc0 : (st.fsDailyVisitsCount w).getD 0 = (st.fsDailyVisitors w).card := by
      rw [hcount, hvis]
      rfl
    have visitors_eq : ∀ l : List Nat,
        (creditAll st now l).fsDailyVisitors w = (l.map (fun i => toString i)).toFinset := by
      intro l
      rw [(creditAll_db_spec now w l st hw hdb hc0).1, hvis, Finset.empty_union]
    constructor
    · intro l
      rw [visitors_eq l]
    · intro l a
      have e := creditAll_db_spec now w l st hw hdb hc0
      have h := markVisit_db (creditAll st now l) now a w e.2.2.1 e.2.2.2 e.2.1
      rw [h.2.2.1, visitors_eq l]
      congr 1
      simp [List.map_append, List.toFinset_append, Finset.insert_eq, Finset.union_comm]

/-- C1 witness -/
theorem credit_count_distinct_witness :
    getNistDayKey readyState 0 = some "1970-01-01"
    ∧ ((creditAll readyState 0 [1, 2, 1]).dailyVisits "1970-01-01").card = 2
    ∧ (markVisitToday (creditAll readyState 0 [1, 2, 1]) 0 3).2 = some 3
    ∧ (markVisitToday (creditAll readyState 0 [1, 2, 1]) 0 2).2 = some 2 := by
  have h := (credit_count_distinct readyState 0 "1970-01-01" (by decide)).1 rfl rfl
  refine ⟨by decide, ?_, ?_, ?_⟩
  · rw [h.1 [1, 2, 1]]
    decide
  · rw [h.2.1 [1, 2, 1] 3]
    decide
  · rw [(h.2.2.1 [1, 2, 1] 2 (by decide)).1]
    decide

/-- C9: two credit calls for the same identity in the same window never
double-count.  Each call is a single atomic unit in the source — the
Firestore branch is one `runTransaction` whose reads and conditional writes
commit atomically (concurrent transactions serialize), and the in-memory
branch runs synchronously with no suspension point between the membership
check and the increment — so any interleaving of two concurrent calls
executes as one call after the other, modelled here as sequential
composition. -/
theorem concurrent_credit_once (st : ServerState) (now : Int) (w : String) (id : Nat)
    (hw : getNistDayKey st now = some w) :
    (st.dbEnabled = true → st.fsDailyVisitors w = ∅ → st.fsDailyVisitsCount w = none →
      (markVisitToday st now id).2 = some 1
      ∧ (markVisitToday (markVisitToday st now id).1 now id).2 = some 1
      ∧ ((markVisitToday (markVisitToday st now id).1 now id).1).fsDailyVisitsCount w = some 1
      ∧ (((markVisitToday (markVisitToday st now id).1 now id).1).fsDailyVisitors w).card = 1)
    ∧ (st.dbEnabled = false → st.dailyVisits w = ∅ →
      (markVisitToday st now id).2 = some 1
      ∧ (markVisitToday (markVisitToday st now id).1 now id).2 = some 1
      ∧ (((markVisitToday (markVisitToday st now id).1 now id).1).dailyVisits w).card = 1) := by
  constructor
  · intro hdb hvis hcount
    have hc0 : (st.fsDailyVisitsCount w).getD 0 = (st.fsDailyVisitors w).card := by
      rw [hcount, hvis]
      rfl
    have h1 := markVisit_db st now id w hw hdb hc0
    have hkey1 : getNistDayKey ((markVisitToday st now id).1) now = some w := by
      rw [markVisit_dayKey]; exact hw
    have hc1 : (((markVisitToday st now id).1).fsDailyVisitsCount w).getD 0
        = (((markVisitToday st now id).1).fsDailyVisitors w).card := by
      rw [h1.2.1, h1.1]
    have h2 := markVisit_db ((markVisitToday st now id).1) now id w hkey1 h1.2.2.2.2 hc1
    have hv1 : ((markVisitToday st now id).1).fsDailyVisitors w = {toString id} := by
      rw [h1.1, hvis]
      simp
    have hcnt1 : ((markVisitToday st now id).1).fsDailyVisitsCount w = some 1 := by
      rw [h1.2.2.2.1, if_neg (by rw [hvis]; exact Finset.not_mem_empty _), hcount]
      rfl
    refine ⟨?_, ?_, ?_, ?_⟩
    · rw [h1.2.2.1, hvis]
      rfl
    · rw [h2.2.2.1, hv1]
      simp
    · rw [h2.2.2.2.1, if_pos (by rw [hv1]; exact Finset.mem_singleton_self _), hcnt1]
    · rw [h2.1, hv1]
      simp
  · intro hdb hempty
    have h1 := markVisit_mem st now id w hw hdb
    have hkey1 : getNistDayKey ((markVisitToday st now id).1) now = some w := by
      rw [markVisit_dayKey]; exact hw
    have h2 := markVisit_mem ((markVisitToday st now id).1) now id w hkey1 h1.2.2
    have hv1 : ((markVisitToday st now id).1).dailyVisits w = {toString id} := by
      rw [h1.1, hempty]
      simp
    refine ⟨?_, ?_, ?_⟩
    · rw [h1.2.1, hempty]
      rfl
    · rw [h2.2.1, hv1]
      simp
    · rw [h2.1, hv1]
      simp

/-- C9 witness -/
theorem concurrent_credit_once_witness :
    getNistDayKey readyDbState 0 = some "1970-01-01"
    ∧ (markVisitToday readyDbState 0 7).2 = some 1
    ∧ (markVisitToday (markVisitToday readyDbState 0 7).1 0 7).2 = some 1
    ∧ ((markVisitToday (markVisitToday readyDbState 0 7).1 0 7).1).fsDailyVisitsCount
        "1970-01-01" = some 1 := by
  have h := (concurrent_credit_once readyDbState 0 "1970-01-01" 7 (by decide)).1 rfl rfl rfl
  exact ⟨by decide, h.1, h.2.1, h.2.2.1⟩
